import Mathlib

/-
  Verification development for the contract metadata-extraction pipeline
  (source files: metadata-extraction-POC.py and
  managed-identity-metadata-extraction-POC.py).

  The embedding models Python dictionaries as ordered association lists
  with Python's insert-or-replace semantics, JSON values that the pipeline
  logic actually distinguishes (null vs. string; all other JSON payloads
  are opaque to the code, which only moves them around, so a string
  constructor suffices to represent them), and the per-attempt retry loop
  of process_contract_with_retry as a fuel-indexed recursion driven by an
  environment that supplies the outcome of each attempt's body (the five
  control-flow-relevant outcomes of the Python loop body: read failure,
  translation failure, extraction failure, extraction success, or an
  uncaught exception).  I/O side effects (printing, sleeping, markdown
  saving) are not modelled; the sleep durations are recorded as the list
  of backoff delays the loop would perform.
-/

/-- JSON values as far as the pipeline distinguishes them: Python None
(JSON null) versus everything else, which the code treats opaquely and we
represent by its string rendering. -/
inductive JVal where
  | null : JVal
  | str : String → JVal
deriving DecidableEq, Repr

/-- A Python dict: ordered association list, unique keys by construction. -/
abbrev Dict := List (String × JVal)

/-- Python dict lookup `d.get(k)` returning None when absent. -/
def dget : Dict → String → Option JVal
  | [], _ => none
  | (k', v) :: d, k => if k' = k then some v else dget d k

/-- Python dict assignment `d[k] = v`: replace in place if the key exists,
else append (insertion order preserved). -/
def dinsert : Dict → String → JVal → Dict
  | [], k, v => [(k, v)]
  | (k', v') :: d, k, v => if k' = k then (k', v) :: d else (k', v') :: dinsert d k v

/-- Python `d.get(k, dflt)`: the default is used only when the key is
absent; a key present with value None yields None. -/
def jgetD (d : Dict) (k : String) (dflt : JVal) : JVal := (dget d k).getD dflt

/-- Whether `pat` is an initial segment of `s` (character-wise). -/
def leadsWith : List Char → List Char → Bool
  | [], _ => true
  | _ :: _, [] => false
  | p :: ps, c :: cs => p == c && leadsWith ps cs

/-- Whether `pat` occurs as a contiguous run somewhere in `s`
(Python's `pat in s`). -/
def subOccurs (pat : List Char) : List Char → Bool
  | [] => leadsWith pat []
  | c :: cs => leadsWith pat (c :: cs) || subOccurs pat cs

/-- Python `pat in s` on strings. -/
def containsSub (s pat : String) : Bool := subOccurs pat.data s.data

/-- Python `s.lower()`: character-wise lowercasing (the error texts the
pipeline classifies are ASCII, where this agrees with Char.toLower). -/
def pyLower (s : String) : String := String.mk (s.data.map Char.toLower)

/-- The rate-limit test used by the retry loop in both source files:
`"rate" in error.lower() or "429" in error`. -/
def isRateLimited (e : String) : Bool :=
  containsSub (pyLower e) "rate" || containsSub e "429"

/-- Fuel-bounded left-to-right non-overlapping replacement over characters;
the fuel is at least the string length plus one, so it never runs out. -/
def replaceFrom : Nat → List Char → List Char → List Char → List Char
  | 0, s, _, _ => s
  | _ + 1, [], _, _ => []
  | fuel + 1, c :: rest, pat, rep =>
    if leadsWith pat (c :: rest) then
      rep ++ replaceFrom fuel (List.drop (pat.length - 1) rest) pat rep
    else c :: replaceFrom fuel rest pat rep

/-- Python `s.replace(pat, rep)` for a nonempty pattern (the pipeline only
calls it with the pattern ".csv"; the empty-pattern case is unused and
modelled as the identity). -/
def pyReplace (s pat rep : String) : String :=
  if pat.data = [] then s
  else String.mk (replaceFrom (s.data.length + 1) s.data pat.data rep.data)

/-- `output_csv.replace('.csv', '_failed_contracts.txt')` from both
failure-list writers in managed-identity-metadata-extraction-POC.py. -/
def failedListName (outputCsv : String) : String :=
  pyReplace outputCsv ".csv" "_failed_contracts.txt"

/-- posixpath.basename: the part after the last '/'. -/
def posixBasename (s : String) : String :=
  String.mk ((s.data.reverse.takeWhile (fun c => c ≠ '/')).reverse)

/-- The characters of `s` up to and including the last '/'. -/
def posixHead (s : String) : List Char :=
  (s.data.reverse.dropWhile (fun c => c ≠ '/')).reverse

/-- posixpath.dirname: everything before the last '/', with trailing
slashes stripped unless the head consists only of slashes. -/
def posixDirname (s : String) : String :=
  let h := posixHead s
  if h.isEmpty then ""
  else if h.all (fun c => c = '/') then String.mk h
  else String.mk ((h.reverse.dropWhile (fun c => c = '/')).reverse)

/-- The guard `'/' in file_name or '\\' in file_name` from the row
builders in managed-identity-metadata-extraction-POC.py. -/
def hasSep (s : String) : Bool := s.data.contains '/' || s.data.contains '\\'

/-- `os.path.dirname(file_name) if '/' in file_name or '\\' in file_name
else ''` (the script runs on a POSIX host, where only '/' separates). -/
def folderPathOf (fn : String) : String := if hasSep fn then posixDirname fn else ""

/-- Python's f-string rendering of a metadata value (None prints as
"None"; used when failure identities are written to the failure list). -/
def jvalText : JVal → String
  | JVal.null => "None"
  | JVal.str s => s

/-- How csv.DictWriter renders a cell: missing keys become the empty
restval, None becomes the empty string, strings are written as-is. -/
def cellStr : Option JVal → String
  | none => ""
  | some JVal.null => ""
  | some (JVal.str s) => s

/-- One CSV data row: the result dict projected onto the column list
(extrasaction='ignore' drops keys outside the columns). -/
def projectRow (cols : List String) (r : Dict) : List String :=
  cols.map (fun c => cellStr (dget r c))

/-- `writer.writerows(results)`: every collected result dict becomes one
CSV data row, failures included. -/
def csvRows (cols : List String) (results : List Dict) : List (List String) :=
  results.map (projectRow cols)

/-- Python `'Error' in r`, the success/failure discriminator used by both
orchestrators. -/
def hasError (r : Dict) : Bool := (dget r "Error").isSome

/-- `sum(1 for r in results if 'Error' in r)`. -/
def errorCount (results : List Dict) : Nat :=
  (results.filter (fun r => hasError r)).length

/-- The five control-flow-relevant outcomes of one iteration of the retry
loop's body in process_contract_with_retry: read_contract_file returned no
text, translate_to_english returned no text, the extraction call reported
an error string, the extraction call returned metadata, or an uncaught
exception was raised somewhere in the body. -/
inductive StepOutcome where
  | raise (e : String)
  | readFail (e : String)
  | transFail (e : String)
  | extractFail (e : String)
  | extractOk (metadata : Dict)
deriving Repr

/-- How a pipeline variant turns an outcome into its returned dict: the
success-row builder and the failure-record builder (both source files
share the loop skeleton but build differently shaped dicts). -/
structure RowBuilder where
  success : Dict → Dict
  failure : String → Dict

/-- The `for attempt in range(1, MAX_RETRIES + 1)` loop of
process_contract_with_retry.  `a` is the current attempt number, the fuel
counts the remaining iterations, and `none` means the loop ran out of
iterations (falling through to the trailing fallback).  A retry prepends
the backoff delay RETRY_DELAY * 2^(attempt-1) to the delay trace.
Extraction errors retry only while attempts remain and the error text
passes the rate-limit test; read and translation failures and extraction
successes return immediately; an uncaught exception retries whenever
attempts remain, with no test on its text. -/
def processLoop (env : Nat → StepOutcome) (maxR : Nat) (base : ℚ) (rb : RowBuilder) :
    Nat → Nat → Option (Dict × List ℚ)
  | _, 0 => none
  | a, k + 1 =>
    match env a with
    | StepOutcome.readFail e => some (rb.failure ("Read error: " ++ e), [])
    | StepOutcome.transFail e => some (rb.failure ("Translation error: " ++ e), [])
    | StepOutcome.extractOk m => some (rb.success m, [])
    | StepOutcome.extractFail e =>
      if a < maxR ∧ isRateLimited e = true then
        (processLoop env maxR base rb (a + 1) k).map (fun p => (p.1, base * 2 ^ (a - 1) :: p.2))
      else some (rb.failure e, [])
    | StepOutcome.raise e =>
      if a < maxR then
        (processLoop env maxR base rb (a + 1) k).map (fun p => (p.1, base * 2 ^ (a - 1) :: p.2))
      else some (rb.failure e, [])

/-- process_contract_with_retry: run the loop from attempt 1 with
MAX_RETRIES iterations of fuel; if the loop falls through, return the
trailing `'Max retries exceeded'` fallback record.  The second component
is the trace of backoff delays slept. -/
def process_contract_with_retry (env : Nat → StepOutcome) (maxR : Nat) (base : ℚ)
    (rb : RowBuilder) : Dict × List ℚ :=
  (processLoop env maxR base rb 1 maxR).getD (rb.failure "Max retries exceeded", [])

namespace POC

/-- SIRION_FIELDS of metadata-extraction-POC.py (schema B). -/
def SIRION_FIELDS : List String :=
  ["Customer (CK) Entity",
   "Supplier Entity",
   "Effective Date",
   "Expiration Date",
   "Term Type",
   "Governing Law",
   "Contract Type",
   "Contract Currency",
   "Payment Term",
   "Termination for Convenience",
   "Notice Period for Termination for Convenience",
   "Party with the Right to Terminate for Convenience"]

/-- The failure record `{'File Name': file_name, 'Error': msg}`. -/
def errRow (file_name msg : String) : Dict :=
  [("File Name", JVal.str file_name), ("Error", JVal.str msg)]

/-- The success row built at lines 436-448 of metadata-extraction-POC.py:
bookkeeping columns, then every SIRION field via metadata.get(field, ''),
then Confidence and Notes with their defaults. -/
def buildRow (metadata : Dict) (file_name : String) : Dict :=
  dinsert
    (dinsert
      (SIRION_FIELDS.foldl (fun r fld => dinsert r fld (jgetD metadata fld (JVal.str "")))
        [("File Name", JVal.str file_name),
         ("Source Language", jgetD metadata "source_language" (JVal.str "unknown")),
         ("Extraction Timestamp", jgetD metadata "extraction_timestamp" (JVal.str ""))])
      "Confidence" (jgetD metadata "confidence" (JVal.str "medium")))
    "Notes" (jgetD metadata "extraction_notes" (JVal.str ""))

/-- The row builders of the metadata-extraction-POC.py pipeline. -/
def rowBuilder (file_name : String) : RowBuilder :=
  ⟨fun m => buildRow m file_name, fun e => errRow file_name e⟩

/-- csv_columns of metadata-extraction-POC.py. -/
def csvColumns : List String :=
  ["File Name", "Source Language", "Extraction Timestamp"] ++ SIRION_FIELDS
    ++ ["Confidence", "Notes"]

/-- Files written by the aggregation step of metadata-extraction-POC.py's
orchestrators (both process_contracts_from_blob and
process_contracts_to_csv): only the CSV, guarded by `if results:`; no
failure-list file exists in this source file. -/
def writtenFiles (outputCsv : String) (results : List Dict) : List String :=
  if results.isEmpty then [] else [outputCsv]

end POC

namespace MI

/-- SIRION_FIELDS of managed-identity-metadata-extraction-POC.py
(schema A). -/
def SIRION_FIELDS : List String :=
  ["Original File Name",
   "Counterparty Legal Entity Name",
   "Internal Contracting Entity",
   "Contract Type",
   "Term Type",
   "Effective Date",
   "Expiration Date",
   "Governing Law",
   "Payment Term",
   "Contract Name",
   "Scope Category level 1",
   "Related Master Agreement"]

/-- The failure record with the folder/file split of the managed-identity
script. -/
def errRow (file_name msg : String) : Dict :=
  [("Folder Path", JVal.str (folderPathOf file_name)),
   ("File Name", JVal.str (posixBasename file_name)),
   ("Error", JVal.str msg)]

/-- The success row built at lines 566-583 of
managed-identity-metadata-extraction-POC.py. -/
def buildRow (metadata : Dict) (file_name : String) : Dict :=
  dinsert
    (dinsert
      (SIRION_FIELDS.foldl (fun r fld => dinsert r fld (jgetD metadata fld (JVal.str "")))
        [("Folder Path", JVal.str (folderPathOf file_name)),
         ("File Name", JVal.str (posixBasename file_name)),
         ("Source Language", jgetD metadata "source_language" (JVal.str "unknown")),
         ("Extraction Timestamp", jgetD metadata "extraction_timestamp" (JVal.str ""))])
      "Confidence" (jgetD metadata "confidence" (JVal.str "medium")))
    "Notes" (jgetD metadata "extraction_notes" (JVal.str ""))

/-- The row builders of the managed-identity pipeline. -/
def rowBuilder (file_name : String) : RowBuilder :=
  ⟨fun m => buildRow m file_name, fun e => errRow file_name e⟩

/-- csv_columns of process_contracts_from_blob in the managed-identity
script. -/
def csvColumnsBlob : List String :=
  ["Folder Path", "File Name", "Source Language", "Extraction Timestamp"] ++ SIRION_FIELDS
    ++ ["Confidence", "Notes"]

/-- extract_metadata_direct of the managed-identity script, applied to the
outcome of the model call plus JSON parse: on success it stamps file_name
and the timestamp and then overrides 'Original File Name' with the literal
input filename; on an exception it annotates rate-limit-flavoured
messages. -/
def extract_metadata_direct (modelOut : Except String Dict) (file_name ts : String) :
    Except String Dict :=
  match modelOut with
  | Except.ok m =>
    Except.ok
      (dinsert (dinsert (dinsert m "file_name" (JVal.str file_name))
          "extraction_timestamp" (JVal.str ts))
        "Original File Name" (JVal.str file_name))
  | Except.error e =>
    Except.error (if isRateLimited e then e ++ " (Rate limit detected)" else e)

/-- extract_metadata_from_english of the managed-identity script: stamps
file_name, timestamp and the method tag, then overrides
'Original File Name' with the literal input filename. -/
def extract_metadata_from_english (modelOut : Except String Dict) (file_name ts : String) :
    Except String Dict :=
  match modelOut with
  | Except.ok m =>
    Except.ok
      (dinsert (dinsert (dinsert (dinsert m "file_name" (JVal.str file_name))
            "extraction_timestamp" (JVal.str ts))
          "extraction_method" (JVal.str "two_call_translation"))
        "Original File Name" (JVal.str file_name))
  | Except.error e => Except.error e

/-- The identity written to the failure list by process_contracts_from_blob:
`r.get('File Name', r.get('Folder Path', 'Unknown'))`. -/
def failId (r : Dict) : JVal :=
  (dget r "File Name").getD ((dget r "Folder Path").getD (JVal.str "Unknown"))

/-- The failed-contract identities in collection order. -/
def failedNames (results : List Dict) : List String :=
  (results.filter (fun r => hasError r)).map (fun r => jvalText (failId r))

/-- The "=" ruler line written under the failure-list header. -/
def eqLine : String := String.mk (List.replicate 80 '=')

/-- The successive f.write calls that produce the failure-list file in
process_contracts_from_blob: the counting header, the ruler plus blank
line, then one identity per line. -/
def failedFileWrites (results : List Dict) : List String :=
  ("Failed Contracts (" ++ toString (errorCount results) ++ " total)\n")
    :: (eqLine ++ "\n\n")
    :: (failedNames results).map (fun n => n ++ "\n")

/-- The full text of the failure-list file. -/
def failedFileContent (results : List Dict) : String :=
  String.join (failedFileWrites results)

/-- The guard structure under which the managed-identity orchestrators
write the failure list: inside `if results:` and then `if error_count > 0:`
(both process_contracts_from_blob and process_contracts_to_csv). -/
def emitsFailureList (results : List Dict) : Bool :=
  !results.isEmpty && decide (0 < errorCount results)

/-- Files written by the aggregation step of the managed-identity
orchestrators: the CSV, then the failure list when any failures exist. -/
def writtenFiles (outputCsv : String) (results : List Dict) : List String :=
  if results.isEmpty then []
  else if 0 < errorCount results then [outputCsv, failedListName outputCsv]
  else [outputCsv]

end MI

/-- Sequential mode of both orchestrators: one
process_contract_with_retry result appended per work item, in enumeration
order. -/
def batchSequential {α : Type} (proc : α → Dict) (items : List α) : List Dict :=
  items.map proc

/-- Parallel mode: every item is submitted once to the pool and
as_completed yields every future exactly once, so the collected list is
the per-item results in some completion order — a permutation of the
sequential results. -/
def batchParallelOutcome {α : Type} (proc : α → Dict) (items : List α)
    (res : List Dict) : Prop :=
  res.Perm (items.map proc)

/-- The per-item pipeline as the orchestrators invoke it: run the retry
loop for the item's environment and keep the returned record. -/
def runItem {α : Type} (envOf : α → Nat → StepOutcome) (maxR : Nat) (base : ℚ)
    (rbOf : α → RowBuilder) (it : α) : Dict :=
  (process_contract_with_retry (envOf it) maxR base (rbOf it)).1

/-- Looking up the just-assigned key returns the new value. -/
theorem dget_dinsert_self (d : Dict) (k : String) (v : JVal) :
    dget (dinsert d k v) k = some v := by
  induction d with
  | nil => simp [dinsert, dget]
  | cons p d ih =>
    obtain ⟨k', v'⟩ := p
    by_cases h : k' = k
    · simp [dinsert, dget, h]
    · simp [dinsert, dget, h, ih]

/-- Assignment to one key leaves lookups of other keys unchanged. -/
theorem dget_dinsert_ne (d : Dict) (k k' : String) (v : JVal) (h : k ≠ k') :
    dget (dinsert d k v) k' = dget d k' := by
  induction d with
  | nil => simp [dinsert, dget, h]
  | cons p d ih =>
    obtain ⟨k₀, v₀⟩ := p
    by_cases h₀ : k₀ = k
    · subst h₀
      simp [dinsert, dget, h]
    · simp [dinsert, dget, h₀, ih]

/-- After the field-filling foldl, a key outside the field list still has
its original binding. -/
theorem dget_foldl_not_mem (m : Dict) (dflt : JVal) (f : String) :
    ∀ (fields : List String) (base : Dict), f ∉ fields →
      dget (fields.foldl (fun r g => dinsert r g (jgetD m g dflt)) base) f = dget base f := by
  intro fields
  induction fields with
  | nil => intro base _; rfl
  | cons g gs ih =>
    intro base hf
    have hne : g ≠ f := fun h => hf (by simp [h])
    have hfs : f ∉ gs := fun h => hf (List.mem_cons_of_mem _ h)
    simp only [List.foldl_cons]
    rw [ih _ hfs, dget_dinsert_ne _ _ _ _ hne]

/-- After the field-filling foldl, every listed field is bound to
`metadata.get(field, dflt)`. -/
theorem dget_foldl_mem (m : Dict) (dflt : JVal) (f : String) :
    ∀ (fields : List String) (base : Dict), f ∈ fields →
      dget (fields.foldl (fun r g => dinsert r g (jgetD m g dflt)) base) f
        = some (jgetD m f dflt) := by
  intro fields
  induction fields with
  | nil => intro base hf; cases hf
  | cons g gs ih =>
    intro base hf
    by_cases hgs : f ∈ gs
    · simpa only [List.foldl_cons] using ih _ hgs
    · have hg : f = g := by
        rcases List.mem_cons.mp hf with h | h
        · exact h
        · exact absurd h hgs
      subst hg
      simp only [List.foldl_cons]
      rw [dget_foldl_not_mem m dflt f gs _ hgs, dget_dinsert_self]

/-- The retry loop returns within its fuel whenever the fuel matches the
remaining attempts and at least one attempt remains. -/
theorem processLoop_isSome (env : Nat → StepOutcome) (maxR : Nat) (base : ℚ)
    (rb : RowBuilder) :
    ∀ (k a : Nat), 1 ≤ a → a + k = maxR + 1 → 1 ≤ k →
      (processLoop env maxR base rb a k).isSome = true := by
  intro k
  induction k with
  | zero => intro a _ _ hk; omega
  | succ k ih =>
    intro a ha hsum _
    show (processLoop env maxR base rb a (k + 1)).isSome = true
    unfold processLoop
    cases henv : env a with
    | readFail e => simp
    | transFail e => simp
    | extractOk m => simp
    | extractFail e =>
      by_cases hc : a < maxR ∧ isRateLimited e = true
      · have hk : 1 ≤ k := by omega
        have := ih (a + 1) (by omega) (by omega) hk
        simp [hc, Option.isSome_map, this]
      · simp [hc]
    | raise e =>
      by_cases hc : a < maxR
      · have hk : 1 ≤ k := by omega
        have := ih (a + 1) (by omega) (by omega) hk
        simp [hc, Option.isSome_map, this]
      · simp [hc]

/-- The loop records strictly fewer backoff delays than it has fuel. -/
theorem processLoop_delays_lt (env : Nat → StepOutcome) (maxR : Nat) (base : ℚ)
    (rb : RowBuilder) :
    ∀ (k a : Nat) (r : Dict) (ds : List ℚ),
      processLoop env maxR base rb a k = some (r, ds) → ds.length < k := by
  intro k
  induction k with
  | zero => intro a r ds h; simp [processLoop] at h
  | succ k ih =>
    intro a r ds h
    unfold processLoop at h
    cases henv : env a <;> simp only [henv] at h
    case readFail e =>
      simp only [Option.some.injEq, Prod.mk.injEq] at h
      obtain ⟨h1, h2⟩ := h
      subst h2; simp
    case transFail e =>
      simp only [Option.some.injEq, Prod.mk.injEq] at h
      obtain ⟨h1, h2⟩ := h
      subst h2; simp
    case extractOk m =>
      simp only [Option.some.injEq, Prod.mk.injEq] at h
      obtain ⟨h1, h2⟩ := h
      subst h2; simp
    case extractFail e =>
      by_cases hc : a < maxR ∧ isRateLimited e = true
      · rw [if_pos hc] at h
        cases hrec : processLoop env maxR base rb (a + 1) k with
        | none => rw [hrec] at h; simp at h
        | some p =>
          rw [hrec] at h
          simp only [Option.map_some', Option.some.injEq, Prod.mk.injEq] at h
          obtain ⟨h1, h2⟩ := h
          have hlt := ih (a + 1) p.1 p.2 (by rw [hrec])
          subst h2
          simp only [List.length_cons]
          omega
      · rw [if_neg hc] at h
        simp only [Option.some.injEq, Prod.mk.injEq] at h
        obtain ⟨h1, h2⟩ := h
        subst h2; simp
    case raise e =>
      by_cases hc : a < maxR
      · rw [if_pos hc] at h
        cases hrec : processLoop env maxR base rb (a + 1) k with
        | none => rw [hrec] at h; simp at h
        | some p =>
          rw [hrec] at h
          simp only [Option.map_some', Option.some.injEq, Prod.mk.injEq] at h
          obtain ⟨h1, h2⟩ := h
          have hlt := ih (a + 1) p.1 p.2 (by rw [hrec])
          subst h2
          simp only [List.length_cons]
          omega
      · rw [if_neg hc] at h
        simp only [Option.some.injEq, Prod.mk.injEq] at h
        obtain ⟨h1, h2⟩ := h
        subst h2; simp

/-- Prepending one backoff delay to a geometric delay tail shifts the
range index. -/
theorem delay_cons_range (base : ℚ) (a k : Nat) (ha : 1 ≤ a) :
    base * 2 ^ (a - 1) :: (List.range k).map (fun i => base * 2 ^ (a + i))
      = (List.range (k + 1)).map (fun i => base * 2 ^ (a - 1 + i)) := by
  simp only [List.range_succ_eq_map, List.map_cons, List.map_map]
  congr 1
  norm_num
  intro i hi
  left
  omega

/-- Running the loop from attempt `a` when every remaining attempt
reports a rate-limited extraction error: the loop backs off after each
attempt but the last, and the last attempt's error becomes the returned
failure. -/
theorem processLoop_rateFail_run (env : Nat → StepOutcome) (maxR : Nat) (base : ℚ)
    (rb : RowBuilder) (e : Nat → String)
    (hfail : ∀ n, 1 ≤ n → n ≤ maxR → env n = StepOutcome.extractFail (e n))
    (hrate : ∀ n, 1 ≤ n → n ≤ maxR → isRateLimited (e n) = true) :
    ∀ (k a : Nat), 1 ≤ a → a + k = maxR + 1 → 1 ≤ k →
      processLoop env maxR base rb a k
        = some (rb.failure (e maxR),
            (List.range (k - 1)).map (fun i => base * 2 ^ (a - 1 + i))) := by
  intro k
  induction k with
  | zero => intro a _ _ hk; omega
  | succ k ih =>
    intro a ha hsum _
    have haM : a ≤ maxR := by omega
    show processLoop env maxR base rb a (k + 1) = _
    unfold processLoop
    rw [hfail a ha haM]
    simp only
    by_cases hc : a < maxR
    · have hk : 1 ≤ k := by omega
      rw [if_pos ⟨hc, hrate a ha haM⟩, ih (a + 1) (by omega) (by omega) hk]
      simp only [Option.map_some']
      have h1 : a + 1 - 1 = a := by omega
      have h2 : k + 1 - 1 = k := by omega
      have h4 : k - 1 + 1 = k := by omega
      rw [h1, h2]
      conv_rhs => rw [← h4]
      rw [delay_cons_range base a (k - 1) ha]
    · have hak : a = maxR := by omega
      have hk0 : k = 0 := by omega
      rw [if_neg (by intro hcc; exact hc hcc.1)]
      subst hak hk0
      simp

/-- Running the loop from attempt `a` when every remaining attempt raises
an uncaught exception: the loop backs off after every attempt but the
last regardless of the exception text, and the last exception's text
becomes the returned failure. -/
theorem processLoop_raise_run (env : Nat → StepOutcome) (maxR : Nat) (base : ℚ)
    (rb : RowBuilder) (e : Nat → String)
    (hfail : ∀ n, 1 ≤ n → n ≤ maxR → env n = StepOutcome.raise (e n)) :
    ∀ (k a : Nat), 1 ≤ a → a + k = maxR + 1 → 1 ≤ k →
      processLoop env maxR base rb a k
        = some (rb.failure (e maxR),
            (List.range (k - 1)).map (fun i => base * 2 ^ (a - 1 + i))) := by
  intro k
  induction k with
  | zero => intro a _ _ hk; omega
  | succ k ih =>
    intro a ha hsum _
    have haM : a ≤ maxR := by omega
    show processLoop env maxR base rb a (k + 1) = _
    unfold processLoop
    rw [hfail a ha haM]
    simp only
    by_cases hc : a < maxR
    · have hk : 1 ≤ k := by omega
      rw [if_pos hc, ih (a + 1) (by omega) (by omega) hk]
      simp only [Option.map_some']
      have h1 : a + 1 - 1 = a := by omega
      have h2 : k + 1 - 1 = k := by omega
      have h4 : k - 1 + 1 = k := by omega
      rw [h1, h2]
      conv_rhs => rw [← h4]
      rw [delay_cons_range base a (k - 1) ha]
    · have hak : a = maxR := by omega
      have hk0 : k = 0 := by omega
      rw [if_neg hc]
      subst hak hk0
      simp

/-- The concrete error text "429" passes the rate-limit test. -/
theorem isRateLimited_429 : isRateLimited "429" = true := by decide

/-- The concrete error text "boom" fails the rate-limit test. -/
theorem isRateLimited_boom : isRateLimited "boom" = false := by decide

/-- Claim C1: in process_contract_with_retry, an extraction error whose
reported text passes the rate-limit test ("rate" case-insensitively, or
"429") is retried up to MAX_RETRIES - 1 additional times, with strictly
increasing backoff delays following delay(n) = RETRY_DELAY * 2^(n-1),
before the last attempt's error becomes the terminal failure; an
extraction error whose reported text contains no rate-limit indicator is
never retried — the first such failure is immediately terminal with no
delay.  (Strict growth of the delays uses RETRY_DELAY > 0; the shipped
default is 2.) -/
theorem claim1_rate_limit_retry_policy (maxR : Nat) (base : ℚ) (rb : RowBuilder)
    (hmax : 1 ≤ maxR) (hbase : 0 < base) :
    (∀ (env : Nat → StepOutcome) (e : String),
       env 1 = StepOutcome.extractFail e → isRateLimited e = false →
       process_contract_with_retry env maxR base rb = (rb.failure e, []))
  ∧ (∀ (env : Nat → StepOutcome) (e : Nat → String),
       (∀ n, 1 ≤ n → n ≤ maxR → env n = StepOutcome.extractFail (e n)) →
       (∀ n, 1 ≤ n → n ≤ maxR → isRateLimited (e n) = true) →
       process_contract_with_retry env maxR base rb
         = (rb.failure (e maxR), (List.range (maxR - 1)).map (fun n => base * 2 ^ n))
       ∧ List.Pairwise (· < ·) ((List.range (maxR - 1)).map (fun n => base * 2 ^ n)))
  ∧ (∀ env : Nat → StepOutcome,
       (process_contract_with_retry env maxR base rb).2.length ≤ maxR - 1) := by
  obtain ⟨m, rfl⟩ : ∃ m, maxR = m + 1 := ⟨maxR - 1, by omega⟩
  refine ⟨?_, ?_, ?_⟩
  · intro env e henv hrate
    simp [process_contract_with_retry, processLoop, henv, hrate]
  · intro env e hfail hrate
    have hrun := processLoop_rateFail_run env (m + 1) base rb e hfail hrate (m + 1) 1
      (by omega) (by omega) (by omega)
    constructor
    · unfold process_contract_with_retry
      rw [hrun]
      simp
    · rw [List.pairwise_map]
      exact (List.pairwise_lt_range _).imp
        (fun h => mul_lt_mul_of_pos_left (pow_lt_pow_right₀ (by norm_num) h) hbase)
  · intro env
    cases h : processLoop env (m + 1) base rb 1 (m + 1) with
    | none => simp [process_contract_with_retry, h]
    | some p =>
      have hlt := processLoop_delays_lt env (m + 1) base rb (m + 1) 1 p.1 p.2 (by rw [h])
      simp only [process_contract_with_retry, h, Option.getD_some]
      omega

/-- Concrete instantiation of claim C1: with MAX_RETRIES = 3 and
RETRY_DELAY = 2, an all-"429" run ends with the last error after two
backoffs, and a non-rate-limited error is terminal at once. -/
theorem claim1_rate_limit_retry_policy_witness :
    ((1 : Nat) ≤ 3 ∧ (0 : ℚ) < 2)
  ∧ process_contract_with_retry (fun _ => StepOutcome.extractFail "429") 3 2
      (POC.rowBuilder "a.txt")
      = ((POC.rowBuilder "a.txt").failure "429",
          (List.range 2).map (fun n => (2 : ℚ) * 2 ^ n))
  ∧ process_contract_with_retry (fun _ => StepOutcome.extractFail "boom") 3 2
      (POC.rowBuilder "a.txt")
      = ((POC.rowBuilder "a.txt").failure "boom", []) :=
  ⟨⟨by norm_num, by norm_num⟩,
   ((claim1_rate_limit_retry_policy 3 2 (POC.rowBuilder "a.txt") (by norm_num)
        (by norm_num)).2.1
      (fun _ => StepOutcome.extractFail "429") (fun _ => "429")
      (fun _ _ _ => rfl) (fun _ _ _ => isRateLimited_429)).1,
   (claim1_rate_limit_retry_policy 3 2 (POC.rowBuilder "a.txt") (by norm_num)
        (by norm_num)).1
      (fun _ => StepOutcome.extractFail "boom") "boom" rfl isRateLimited_boom⟩

/-- The environment for the C6 counterexample: attempt 1 raises an
exception whose text has no rate-limit indicator, attempt 2 extracts
successfully. -/
def envExc : Nat → StepOutcome :=
  fun a => if a = 1 then StepOutcome.raise "boom" else StepOutcome.extractOk []

/-- Claim C6 counterexample: "boom" contains no rate-limit indicator, yet
the item IS retried after the exception (the run ends in the attempt-2
success row after one backoff), contradicting the claim that the same
rate-limit substring test decides retry for exceptions — the except
branch of process_contract_with_retry retries unconditionally while
attempts remain. -/
theorem claim6_exception_counterexample :
    isRateLimited "boom" = false
  ∧ (process_contract_with_retry envExc 3 2 (POC.rowBuilder "a.txt")).1
      = POC.buildRow [] "a.txt"
  ∧ hasError (process_contract_with_retry envExc 3 2 (POC.rowBuilder "a.txt")).1 = false
  ∧ (process_contract_with_retry envExc 3 2 (POC.rowBuilder "a.txt")).2.length = 1 := by
  decide

/-- Claim C6 (amended): an uncaught exception during an attempt is always
retried with the exponential backoff while attempts remain, with no test
applied to the exception's text; only an exception on the final attempt
becomes the terminal failure.  In particular an all-raising environment
produces MAX_RETRIES - 1 backoffs and surfaces the last exception. -/
theorem claim6_exception_retry (maxR : Nat) (base : ℚ) (rb : RowBuilder)
    (hmax : 1 ≤ maxR) :
    (∀ (env : Nat → StepOutcome) (e : Nat → String),
       (∀ n, 1 ≤ n → n ≤ maxR → env n = StepOutcome.raise (e n)) →
       process_contract_with_retry env maxR base rb
         = (rb.failure (e maxR), (List.range (maxR - 1)).map (fun n => base * 2 ^ n)))
  ∧ (∀ (env : Nat → StepOutcome) (e : String),
       env 1 = StepOutcome.raise e → 2 ≤ maxR →
       ∃ p, processLoop env maxR base rb 2 (maxR - 1) = some p ∧
         process_contract_with_retry env maxR base rb = (p.1, base * 2 ^ 0 :: p.2)) := by
  constructor
  · intro env e hfail
    obtain ⟨m, rfl⟩ : ∃ m, maxR = m + 1 := ⟨maxR - 1, by omega⟩
    have hrun := processLoop_raise_run env (m + 1) base rb e hfail (m + 1) 1
      (by omega) (by omega) (by omega)
    unfold process_contract_with_retry
    rw [hrun]
    simp
  · intro env e henv h2
    obtain ⟨m, rfl⟩ : ∃ m, maxR = m + 2 := ⟨maxR - 2, by omega⟩
    have hs := processLoop_isSome env (m + 2) base rb (m + 1) 2 (by omega) (by omega)
      (by omega)
    obtain ⟨p, hp⟩ := Option.isSome_iff_exists.mp hs
    refine ⟨p, hp, ?_⟩
    unfold process_contract_with_retry
    show (processLoop env (m + 2) base rb 1 (m + 2)).getD _ = _
    unfold processLoop
    rw [henv]
    simp only
    rw [if_pos (by omega : 1 < m + 2)]
    rw [show processLoop env (m + 2) base rb (1 + 1) (m + 1) = some p from hp]
    simp

/-- Concrete instantiation of the amended claim C6: three attempts that
all raise end in the last exception's failure record after two backoffs. -/
theorem claim6_exception_retry_witness :
    ((1 : Nat) ≤ 3)
  ∧ process_contract_with_retry (fun _ => StepOutcome.raise "boom") 3 2
      (POC.rowBuilder "a.txt")
      = ((POC.rowBuilder "a.txt").failure "boom",
          (List.range 2).map (fun n => (2 : ℚ) * 2 ^ n)) :=
  ⟨by norm_num,
   (claim6_exception_retry 3 2 (POC.rowBuilder "a.txt") (by norm_num)).1
     (fun _ => StepOutcome.raise "boom") (fun _ => "boom") (fun _ _ _ => rfl)⟩

/-- Claim C9: whenever MAX_RETRIES ≥ 1, the retry loop returns one of its
in-loop records for every environment behaviour — every exception is
caught into a failure record and the loop terminates within its attempt
budget — so process_contract_with_retry returns that record and the
trailing 'Max retries exceeded' fallback after the loop is unreachable. -/
theorem claim9_loop_always_returns (env : Nat → StepOutcome) (maxR : Nat) (base : ℚ)
    (rb : RowBuilder) (hmax : 1 ≤ maxR) :
    ∃ p, processLoop env maxR base rb 1 maxR = some p ∧
      process_contract_with_retry env maxR base rb = p := by
  have hs := processLoop_isSome env maxR base rb maxR 1 (by omega) (by omega) hmax
  obtain ⟨p, hp⟩ := Option.isSome_iff_exists.mp hs
  exact ⟨p, hp, by simp [process_contract_with_retry, hp]⟩

/-- Concrete instantiation of claim C9 at MAX_RETRIES = 3. -/
theorem claim9_loop_always_returns_witness :
    ((1 : Nat) ≤ 3)
  ∧ ∃ p, processLoop (fun _ => StepOutcome.extractOk []) 3 2 (POC.rowBuilder "a.txt") 1 3
        = some p
      ∧ process_contract_with_retry (fun _ => StepOutcome.extractOk []) 3 2
          (POC.rowBuilder "a.txt") = p :=
  ⟨by norm_num,
   claim9_loop_always_returns (fun _ => StepOutcome.extractOk []) 3 2
     (POC.rowBuilder "a.txt") (by norm_num)⟩

/-- Claim C2: for every submitted work-item list, both batch modes yield
exactly one collected result per item: the sequential collection has
exactly the items' length, and any parallel (as_completed-ordered)
collection is a permutation of the sequential one, hence also has that
length with every result record occurring the same number of times (no
loss, no duplication) — regardless of per-item success, failure or retry
exhaustion, which are all covered by the arbitrary per-item
environment. -/
theorem claim2_one_result_per_item {α : Type} (envOf : α → Nat → StepOutcome)
    (maxR : Nat) (base : ℚ) (rbOf : α → RowBuilder) (items : List α) :
    (batchSequential (runItem envOf maxR base rbOf) items).length = items.length
  ∧ ∀ res : List Dict,
      batchParallelOutcome (runItem envOf maxR base rbOf) items res →
      res.length = items.length
      ∧ ∀ d : Dict,
          res.count d = (batchSequential (runItem envOf maxR base rbOf) items).count d := by
  refine ⟨by simp [batchSequential], ?_⟩
  intro res hres
  unfold batchParallelOutcome at hres
  refine ⟨?_, fun d => ?_⟩
  · rw [hres.length_eq]
    simp [batchSequential]
  · have h := hres.countP_eq (fun x => x == d)
    simpa [batchSequential, List.count] using h

/-- Concrete instantiation of claim C2: a two-item batch whose parallel
collection arrives in reversed order still has one result per item. -/
theorem claim2_one_result_per_item_witness :
    batchParallelOutcome (runItem (fun _ _ => StepOutcome.extractOk []) 3 2 POC.rowBuilder)
      ["a.txt", "b.txt"]
      ((batchSequential (runItem (fun _ _ => StepOutcome.extractOk []) 3 2 POC.rowBuilder)
          ["a.txt", "b.txt"]).reverse)
  ∧ ((batchSequential (runItem (fun _ _ => StepOutcome.extractOk []) 3 2 POC.rowBuilder)
        ["a.txt", "b.txt"]).reverse).length = (["a.txt", "b.txt"] : List String).length :=
  ⟨List.reverse_perm _,
   ((claim2_one_result_per_item (fun _ _ => StepOutcome.extractOk []) 3 2 POC.rowBuilder
        ["a.txt", "b.txt"]).2 _ (List.reverse_perm _)).1⟩

/-- Claim C4: both schema-A extraction paths (direct and translate-then-
extract) return, on success, a metadata dict whose 'Original File Name'
is the literal caller-supplied filename, regardless of what string (if
any) the model's JSON contained for that key. -/
theorem claim4_original_file_name_override (m : Dict) (fn ts : String) :
    (∃ r, MI.extract_metadata_direct (Except.ok m) fn ts = Except.ok r
       ∧ dget r "Original File Name" = some (JVal.str fn))
  ∧ (∃ r, MI.extract_metadata_from_english (Except.ok m) fn ts = Except.ok r
       ∧ dget r "Original File Name" = some (JVal.str fn)) :=
  ⟨⟨_, rfl, dget_dinsert_self _ _ _⟩, ⟨_, rfl, dget_dinsert_self _ _ _⟩⟩

/-- No schema-A field collides with the trailing quality keys. -/
theorem mi_fields_ne_tail :
    ∀ f ∈ MI.SIRION_FIELDS, f ≠ "Confidence" ∧ f ≠ "Notes" := by decide

/-- No schema-B field collides with the trailing quality keys. -/
theorem poc_fields_ne_tail :
    ∀ f ∈ POC.SIRION_FIELDS, f ≠ "Confidence" ∧ f ≠ "Notes" := by decide

/-- In the schema-A success row every schema field is bound to
`metadata.get(field, '')`. -/
theorem mi_buildRow_field (m : Dict) (fn f : String) (hf : f ∈ MI.SIRION_FIELDS) :
    dget (MI.buildRow m fn) f = some (jgetD m f (JVal.str "")) := by
  obtain ⟨hc, hn⟩ := mi_fields_ne_tail f hf
  unfold MI.buildRow
  rw [dget_dinsert_ne _ _ _ _ (Ne.symm hn), dget_dinsert_ne _ _ _ _ (Ne.symm hc)]
  exact dget_foldl_mem m (JVal.str "") f MI.SIRION_FIELDS _ hf

/-- In the schema-B success row every schema field is bound to
`metadata.get(field, '')`. -/
theorem poc_buildRow_field (m : Dict) (fn f : String) (hf : f ∈ POC.SIRION_FIELDS) :
    dget (POC.buildRow m fn) f = some (jgetD m f (JVal.str "")) := by
  obtain ⟨hc, hn⟩ := poc_fields_ne_tail f hf
  unfold POC.buildRow
  rw [dget_dinsert_ne _ _ _ _ (Ne.symm hn), dget_dinsert_ne _ _ _ _ (Ne.symm hc)]
  exact dget_foldl_mem m (JVal.str "") f POC.SIRION_FIELDS _ hf

/-- Claim C7: every successful result row contains every configured
schema field as a key — bound to the model's value when present and to
the empty string precisely when the model omitted the field — in both
pipelines. -/
theorem claim7_success_row_has_all_fields (m : Dict) (fn : String) :
    (∀ f ∈ MI.SIRION_FIELDS,
       dget (MI.buildRow m fn) f = some (jgetD m f (JVal.str ""))
       ∧ (dget m f = none → dget (MI.buildRow m fn) f = some (JVal.str "")))
  ∧ (∀ f ∈ POC.SIRION_FIELDS,
       dget (POC.buildRow m fn) f = some (jgetD m f (JVal.str ""))
       ∧ (dget m f = none → dget (POC.buildRow m fn) f = some (JVal.str ""))) := by
  constructor
  · intro f hf
    have key := mi_buildRow_field m fn f hf
    exact ⟨key, fun hnone => by rw [key]; simp [jgetD, hnone]⟩
  · intro f hf
    have key := poc_buildRow_field m fn f hf
    exact ⟨key, fun hnone => by rw [key]; simp [jgetD, hnone]⟩

/-- Concrete instantiation of claim C7 at an empty model output: the
'Term Type' field of both schemas is present in the row, bound to "". -/
theorem claim7_success_row_has_all_fields_witness :
    ("Term Type" ∈ MI.SIRION_FIELDS ∧ "Term Type" ∈ POC.SIRION_FIELDS)
  ∧ dget (MI.buildRow [] "x.pdf") "Term Type" = some (JVal.str "")
  ∧ dget (POC.buildRow [] "x.pdf") "Term Type" = some (JVal.str "") :=
  ⟨⟨by decide, by decide⟩,
   ((claim7_success_row_has_all_fields [] "x.pdf").1 "Term Type" (by decide)).2 rfl,
   ((claim7_success_row_has_all_fields [] "x.pdf").2 "Term Type" (by decide)).2 rfl⟩

/-- Claim C10: when the model output omits the 'confidence' key, the
success row's 'Confidence' column is the string "medium"; when it omits
'source_language', the row's 'Source Language' column is "unknown" — in
both pipelines the defaults are substituted silently. -/
theorem claim10_row_defaults (m : Dict) (fn : String) :
    (dget m "confidence" = none →
       dget (MI.buildRow m fn) "Confidence" = some (JVal.str "medium")
       ∧ dget (POC.buildRow m fn) "Confidence" = some (JVal.str "medium"))
  ∧ (dget m "source_language" = none →
       dget (MI.buildRow m fn) "Source Language" = some (JVal.str "unknown")
       ∧ dget (POC.buildRow m fn) "Source Language" = some (JVal.str "unknown")) := by
  constructor
  · intro hnone
    constructor
    · unfold MI.buildRow
      rw [dget_dinsert_ne _ _ _ _ (by decide : ("Notes" : String) ≠ "Confidence"),
        dget_dinsert_self]
      simp [jgetD, hnone]
    · unfold POC.buildRow
      rw [dget_dinsert_ne _ _ _ _ (by decide : ("Notes" : String) ≠ "Confidence"),
        dget_dinsert_self]
      simp [jgetD, hnone]
  · intro hnone
    constructor
    · unfold MI.buildRow
      rw [dget_dinsert_ne _ _ _ _ (by decide : ("Notes" : String) ≠ "Source Language"),
        dget_dinsert_ne _ _ _ _ (by decide : ("Confidence" : String) ≠ "Source Language"),
        dget_foldl_not_mem m (JVal.str "") "Source Language" MI.SIRION_FIELDS _ (by decide)]
      simp [dget, jgetD, hnone]
    · unfold POC.buildRow
      rw [dget_dinsert_ne _ _ _ _ (by decide : ("Notes" : String) ≠ "Source Language"),
        dget_dinsert_ne _ _ _ _ (by decide : ("Confidence" : String) ≠ "Source Language"),
        dget_foldl_not_mem m (JVal.str "") "Source Language" POC.SIRION_FIELDS _ (by decide)]
      simp [dget, jgetD, hnone]

/-- Concrete instantiation of claim C10 at an empty model output. -/
theorem claim10_row_defaults_witness :
    dget (MI.buildRow [] "x.pdf") "Confidence" = some (JVal.str "medium")
  ∧ dget (POC.buildRow [] "x.pdf") "Source Language" = some (JVal.str "unknown") :=
  ⟨((claim10_row_defaults [] "x.pdf").1 rfl).1, ((claim10_row_defaults [] "x.pdf").2 rfl).2⟩

/-- The all-attempts-fail environment used by the C3 and C5
counterexamples: every attempt's extraction reports an error with no
rate-limit indicator, so the first failure is terminal. -/
def envBoom : Nat → StepOutcome := fun _ => StepOutcome.extractFail "boom"

/-- Claim C3 counterexample: writer.writerows(results) writes ALL
collected results, so a batch whose single document fails still produces
one CSV data row — the failed document's identity with every schema
field rendered empty — contradicting the claim that a failed document's
identity never appears as a CSV row. -/
theorem claim3_failed_row_written_counterexample :
    hasError (runItem (fun _ => envBoom) 3 2 MI.rowBuilder "bad.docx") = true
  ∧ csvRows MI.csvColumnsBlob
      (batchSequential (runItem (fun _ => envBoom) 3 2 MI.rowBuilder) ["bad.docx"])
      = [["", "bad.docx", "", "",
          "", "", "", "", "", "", "", "", "", "", "", "",
          "", ""]] := by
  decide

/-- Claim C3 (amended): the CSV writer emits one row for every collected
result, failures included: a failed document appears both in the CSV —
identity columns filled, every schema field rendered empty, the error
text dropped because 'Error' is not a CSV column — and in the failure
list. -/
theorem claim3_failed_rows_in_csv_and_list (results : List Dict) :
    (csvRows MI.csvColumnsBlob results).length = results.length
  ∧ (∀ fn e, projectRow MI.csvColumnsBlob (MI.errRow fn e)
       = [folderPathOf fn, posixBasename fn] ++ List.replicate 16 "")
  ∧ (∀ r ∈ results, hasError r = true →
       jvalText (MI.failId r) ∈ MI.failedNames results) := by
  refine ⟨by simp [csvRows], ?_, ?_⟩
  · intro fn e
    show (MI.csvColumnsBlob.map fun c => cellStr (dget (MI.errRow fn e) c)) = _
    simp [MI.csvColumnsBlob, MI.SIRION_FIELDS, MI.errRow, dget, cellStr, List.replicate]
  · intro r hr he
    exact List.mem_map_of_mem _ (List.mem_filter.mpr ⟨hr, he⟩)

/-- Concrete instantiation of the amended claim C3: a concrete failure
record is counted in the CSV rows and named in the failure list. -/
theorem claim3_failed_rows_in_csv_and_list_witness :
    (MI.errRow "bad.docx" "boom" ∈ [MI.errRow "bad.docx" "boom"]
      ∧ hasError (MI.errRow "bad.docx" "boom") = true)
  ∧ jvalText (MI.failId (MI.errRow "bad.docx" "boom"))
      ∈ MI.failedNames [MI.errRow "bad.docx" "boom"] :=
  ⟨⟨by decide, by decide⟩,
   (claim3_failed_rows_in_csv_and_list [MI.errRow "bad.docx" "boom"]).2.2 _ (by decide)
     (by decide)⟩

/-- Claim C5 counterexample: a metadata-extraction-POC.py batch run with
one failed document writes only the CSV — that pipeline has no
failure-list writer at all — so "a failure list is emitted if and only if
at least one document failed" fails on its only-if-needed side there. -/
theorem claim5_poc_no_failure_list_counterexample :
    errorCount (batchSequential (runItem (fun _ => envBoom) 3 2 POC.rowBuilder) ["bad.docx"])
      = 1
  ∧ POC.writtenFiles "out.csv"
      (batchSequential (runItem (fun _ => envBoom) 3 2 POC.rowBuilder) ["bad.docx"])
      = ["out.csv"]
  ∧ failedListName "out.csv"
      ∉ POC.writtenFiles "out.csv"
          (batchSequential (runItem (fun _ => envBoom) 3 2 POC.rowBuilder) ["bad.docx"]) := by
  decide

/-- Claim C5 (amended): only the managed-identity orchestrators emit the
failure list, and they do so exactly when at least one document failed;
the file then consists of the counting header, a ruler line, and one
failed document identity per line.  The metadata-extraction-POC.py
orchestrators write at most the CSV, never a failure list. -/
theorem claim5_failure_list_policy (results : List Dict) (outputCsv : String) :
    (MI.emitsFailureList results = true ↔ 0 < errorCount results)
  ∧ (MI.writtenFiles outputCsv results
       = if MI.emitsFailureList results = true
         then [outputCsv, failedListName outputCsv]
         else if results.isEmpty then [] else [outputCsv])
  ∧ (MI.failedFileWrites results).head?
      = some ("Failed Contracts (" ++ toString (errorCount results) ++ " total)\n")
  ∧ (MI.failedFileWrites results).drop 2
      = (MI.failedNames results).map (fun n => n ++ "\n")
  ∧ (POC.writtenFiles outputCsv results = []
      ∨ POC.writtenFiles outputCsv results = [outputCsv]) := by
  refine ⟨?_, ?_, rfl, rfl, ?_⟩
  · unfold MI.emitsFailureList
    constructor
    · intro h
      exact of_decide_eq_true ((Bool.and_eq_true _ _).mp h).2
    · intro h
      have hne : results.isEmpty = false := by
        cases results with
        | nil => simp [errorCount] at h
        | cons a l => rfl
      simp [hne, h]
  · unfold MI.writtenFiles MI.emitsFailureList
    by_cases hE : results.isEmpty
    · have hnil : results = [] := List.isEmpty_iff.mp hE
      subst hnil
      simp [errorCount]
    · by_cases hc : 0 < errorCount results
      · simp [hE, hc]
      · simp [hE, hc]
  · unfold POC.writtenFiles
    by_cases hE : results.isEmpty
    · left; simp [hE]
    · right; simp [hE]

/-- Concrete instantiation of the amended claim C5: one concrete failure
makes the managed-identity pipeline emit the failure list. -/
theorem claim5_failure_list_policy_witness :
    (0 < errorCount [MI.errRow "bad.docx" "boom"])
  ∧ MI.emitsFailureList [MI.errRow "bad.docx" "boom"] = true :=
  ⟨by decide,
   (claim5_failure_list_policy [MI.errRow "bad.docx" "boom"] "out.csv").1.mpr (by decide)⟩

/-- A possible model output pairing "Perpetual" with a non-null
expiration date — nothing in the code rules it out. -/
def mPerp : Dict :=
  [("Term Type", JVal.str "Perpetual"), ("Expiration Date", JVal.str "12/31/2030")]

/-- Claim C8 counterexample: the term-type/expiration-date coupling is
only an instruction in the system prompt; the pipeline performs no
validation, so a successful schema-A run whose model output pairs
"Perpetual" with a non-null expiration date yields a success row carrying
exactly that pair. -/
theorem claim8_perpetual_counterexample :
    process_contract_with_retry (fun _ => StepOutcome.extractOk mPerp) 3 2
        (MI.rowBuilder "a.pdf")
      = (MI.buildRow mPerp "a.pdf", [])
  ∧ hasError (MI.buildRow mPerp "a.pdf") = false
  ∧ dget (MI.buildRow mPerp "a.pdf") "Term Type" = some (JVal.str "Perpetual")
  ∧ dget (MI.buildRow mPerp "a.pdf") "Expiration Date"
      = some (JVal.str "12/31/2030") := by
  decide

/-- Claim C8 (amended): the schema-A success row passes the model's
'Term Type' and 'Expiration Date' values through unmodified (empty string
when omitted), so the Perpetual-implies-null coupling holds in a row
exactly when the model's output already satisfies it; the code itself
does not enforce the coupling. -/
theorem claim8_term_expiration_pass_through (m : Dict) (fn : String) :
    dget (MI.buildRow m fn) "Term Type" = some (jgetD m "Term Type" (JVal.str ""))
  ∧ dget (MI.buildRow m fn) "Expiration Date"
      = some (jgetD m "Expiration Date" (JVal.str ""))
  ∧ (jgetD m "Term Type" (JVal.str "") = JVal.str "Perpetual" →
       jgetD m "Expiration Date" (JVal.str "") = JVal.null →
       dget (MI.buildRow m fn) "Expiration Date" = some JVal.null) := by
  have h1 := mi_buildRow_field m fn "Term Type" (by decide)
  have h2 := mi_buildRow_field m fn "Expiration Date" (by decide)
  exact ⟨h1, h2, fun _ hnull => by rw [h2, hnull]⟩

/-- A model output satisfying the coupling: "Perpetual" with a null
expiration date. -/
def mPerpNull : Dict :=
  [("Term Type", JVal.str "Perpetual"), ("Expiration Date", JVal.null)]

/-- Concrete instantiation of the amended claim C8: a coupling-respecting
model output yields a row with a null expiration date. -/
theorem claim8_term_expiration_pass_through_witness :
    (jgetD mPerpNull "Term Type" (JVal.str "") = JVal.str "Perpetual"
      ∧ jgetD mPerpNull "Expiration Date" (JVal.str "") = JVal.null)
  ∧ dget (MI.buildRow mPerpNull "a.pdf") "Expiration Date" = some JVal.null :=
  ⟨⟨by decide, by decide⟩,
   (claim8_term_expiration_pass_through mPerpNull "a.pdf").2.2 (by decide) (by decide)⟩
